import Mathlib

/-!
# Verification of `atomai/utils/preproc.py` (shape-inference and batching core)

Shallow embedding of the preprocessing core:

* an `NDArray α` models a numpy array at axis-0 granularity: its `shape`
  (list of axis sizes) together with the ordered list of its axis-0 slices
  (`data`, one entry per sample); a well-formed array has
  `data.length = shape[0]`;
* `num_classes_from_labels`, `check_image_dims`, `check_signal_dims`,
  `ndarray2list` and `preprocess_training_image_data` are translated from
  the Python source one branch at a time;
* Python exceptions are modelled by the `Result` type with an explicit
  error kind (`AssertionError` for bad label encodings =
  `invalidLabelEncoding`, `TypeError` for non-array pipeline inputs =
  `invalidInputType`, `ValueError` for `np.split` / `min([])` failures =
  `valueError`).
-/

/-- Error kinds raised by the preprocessing core.
`invalidLabelEncoding` models the `AssertionError`s of
`num_classes_from_labels`; `invalidInputType` models the `TypeError` of
`preprocess_training_image_data`; `valueError` models numpy/python
`ValueError`s (e.g. `np.split` with zero sections, `min` of an empty
sequence). -/
inductive PrepError where
  | invalidLabelEncoding : PrepError
  | invalidInputType : PrepError
  | valueError : PrepError
deriving DecidableEq, Repr

/-- Result of a fallible Python call: a value or a raised error kind. -/
inductive Result (α : Type) where
  | ok : α → Result α
  | err : PrepError → Result α
deriving DecidableEq, Repr

instance : Monad Result where
  pure := Result.ok
  bind m f := match m with
    | .ok a => f a
    | .err e => .err e

@[simp] theorem Result.ok_bind {α β : Type} (a : α) (f : α → Result β) :
    (Result.ok a >>= f) = f a := rfl

@[simp] theorem Result.err_bind {α β : Type} (e : PrepError) (f : α → Result β) :
    (Result.err e >>= f) = Result.err e := rfl

/-- A numpy array, modelled at axis-0 granularity: `shape` is the list of
axis sizes (`ndim = shape.length`), `data` is the ordered list of axis-0
slices (samples), each of type `α`. -/
structure NDArray (α : Type) where
  shape : List ℕ
  data : List α
deriving DecidableEq, Repr

namespace NDArray

/-- `a.ndim` — the number of axes. -/
def ndim {α : Type} (a : NDArray α) : ℕ := a.shape.length

/-- `a.shape[0]` — the leading (sample) axis size; `0` for a 0-d array
(where Python would raise, a case outside every claim). -/
def dim0 {α : Type} (a : NDArray α) : ℕ := a.shape.headD 0

/-- Well-formedness: the number of stored axis-0 slices matches the
leading axis size. -/
def wf {α : Type} (a : NDArray α) : Prop := a.data.length = a.dim0

instance {α : Type} (a : NDArray α) : Decidable a.wf := by
  unfold wf; infer_instance

end NDArray

/-- `x[:, np.newaxis]` / `np.expand_dims(x, axis=1)`: insert a singleton
axis at position 1.  The axis-0 slices are untouched. -/
def expand1 {α : Type} (a : NDArray α) : NDArray α :=
  ⟨a.shape.take 1 ++ 1 :: a.shape.drop 1, a.data⟩

/-- `x[:m]`: keep the first `m` axis-0 slices (all of them when
`m ≥ x.shape[0]`). -/
def sliceLead {α : Type} (a : NDArray α) (m : ℕ) : NDArray α :=
  ⟨min m a.dim0 :: a.shape.tail, a.data.take (min m a.dim0)⟩

/-- `np.split(a, n)` along axis 0: raises `ValueError` when `n = 0`
("number sections must be larger than 0") or when `n` does not divide
`a.shape[0]` ("array split does not result in an equal division");
otherwise returns the `n` consecutive sub-arrays of `a.shape[0] / n`
samples each. -/
def npSplit {α : Type} (a : NDArray α) (n : ℕ) : Result (List (NDArray α)) :=
  if n = 0 then .err .valueError
  else if a.dim0 % n ≠ 0 then .err .valueError
  else .ok ((List.range n).map fun i =>
    ⟨a.dim0 / n :: a.shape.tail, (a.data.drop (i * (a.dim0 / n))).take (a.dim0 / n)⟩)

/-- `np.unique(labels)` over the flattened element values: the sorted list
of distinct values. -/
def npUnique (l : List ℤ) : List ℤ := (List.insertionSort (· ≤ ·) l).dedup

/-- The loop `for i, j in zip(uval, uval[1:]): if j - i != 1: raise ...` of
`num_classes_from_labels`: `true` iff every adjacent pair of the list has
difference exactly 1. -/
def consecCheck : List ℤ → Bool
  | a :: b :: rest => decide (b - a = 1) && consecCheck (b :: rest)
  | _ => true

/-- `num_classes_from_labels` from `preproc.py`.  A label array carries its
element values as flattened lists (`α = List ℤ`), so `np.unique(labels)` is
`npUnique` of the join.  `min(uval)` is the head of the sorted `uval`
(raising `ValueError` when `uval` is empty, as `min([])` does). -/
def num_classes_from_labels (labels : NDArray (List ℤ)) : Result ℕ :=
  let uval := npUnique labels.data.flatten
  match uval with
  | [] => .err .valueError
  | m :: _ =>
    if m ≠ 0 then .err .invalidLabelEncoding
    else if ¬ consecCheck uval then .err .invalidLabelEncoding
    else .ok (if uval.length = 2 then uval.length - 1 else uval.length)

/-- `check_image_dims` from `preproc.py`: data arrays of rank 3 get a
channel axis inserted at position 1; label arrays get one only when
`num_classes == 1` and their rank is 3.  Returned in the source's order
`(X_train, y_train, X_test, y_test)`. -/
def check_image_dims {α : Type} (X_train y_train X_test y_test : NDArray α)
    (num_classes : ℕ) : NDArray α × NDArray α × NDArray α × NDArray α :=
  let X_train := if X_train.ndim = 3 then expand1 X_train else X_train
  let X_test := if X_test.ndim = 3 then expand1 X_test else X_test
  let y_train := if num_classes = 1 ∧ y_train.ndim = 3 then expand1 y_train else y_train
  let y_test := if num_classes = 1 ∧ y_test.ndim = 3 then expand1 y_test else y_test
  (X_train, y_train, X_test, y_test)

/-- `check_signal_dims` from `preproc.py`: the branch is chosen by
comparing the (original) ranks of `X_train` and `y_train`; inside a branch
each of the four arrays is expanded at position 1 iff its own rank equals
the branch's threshold (3 for data / 2 for spectra when data outranks
labels, swapped otherwise); equal train ranks leave everything unchanged. -/
def check_signal_dims {α : Type} (X_train y_train X_test y_test : NDArray α) :
    NDArray α × NDArray α × NDArray α × NDArray α :=
  if y_train.ndim < X_train.ndim then
    ((if X_train.ndim = 3 then expand1 X_train else X_train),
     (if y_train.ndim = 2 then expand1 y_train else y_train),
     (if X_test.ndim = 3 then expand1 X_test else X_test),
     (if y_test.ndim = 2 then expand1 y_test else y_test))
  else if X_train.ndim < y_train.ndim then
    ((if X_train.ndim = 2 then expand1 X_train else X_train),
     (if y_train.ndim = 3 then expand1 y_train else y_train),
     (if X_test.ndim = 2 then expand1 X_test else X_test),
     (if y_test.ndim = 3 then expand1 y_test else y_test))
  else (X_train, y_train, X_test, y_test)

/-- `ndarray2list` from `preproc.py`: `n_train_batches, _ =
np.divmod(X_train.shape[0], batch_size)` (numpy integer divmod by zero
yields quotient 0, as Nat division does), the train pair is sliced to
`n_train_batches * batch_size` samples and split into `n_train_batches`
parts, and likewise the test pair with its own batch count.  Each
`np.split` may raise `ValueError` (zero sections / unequal division),
propagated in the source's evaluation order. -/
def ndarray2list {α : Type} (X_train y_train X_test y_test : NDArray α)
    (batch_size : ℕ) :
    Result (List (NDArray α) × List (NDArray α) × List (NDArray α) × List (NDArray α)) :=
  let n_train_batches := X_train.dim0 / batch_size
  let n_test_batches := X_test.dim0 / batch_size
  npSplit (sliceLead X_train (n_train_batches * batch_size)) n_train_batches >>= fun lX_train =>
  npSplit (sliceLead y_train (n_train_batches * batch_size)) n_train_batches >>= fun ly_train =>
  npSplit (sliceLead X_test (n_test_batches * batch_size)) n_test_batches >>= fun lX_test =>
  npSplit (sliceLead y_test (n_test_batches * batch_size)) n_test_batches >>= fun ly_test =>
  .ok (lX_train, ly_train, lX_test, ly_test)

/-- A value handed to the pipeline: either a genuine `np.ndarray` (whose
label/image content is a flattened list of integers per sample) or any
other Python object, for which `isinstance(i, np.ndarray)` is false. -/
inductive PyObj where
  | arr : NDArray (List ℤ) → PyObj
  | nonArray : PyObj
deriving DecidableEq

/-- `preprocess_training_image_data` from `preproc.py`: first the
`isinstance` check over all four inputs (raising `TypeError` =
`invalidInputType` if any fails), then `num_classes_from_labels` on the
training labels, then `check_image_dims`, then `ndarray2list`. -/
def preprocess_training_image_data (images_all labels_all images_test_all
    labels_test_all : PyObj) (batch_size : ℕ) :
    Result (List (NDArray (List ℤ)) × List (NDArray (List ℤ)) ×
      List (NDArray (List ℤ)) × List (NDArray (List ℤ)) × ℕ) :=
  match images_all, labels_all, images_test_all, labels_test_all with
  | .arr images, .arr labels, .arr images_test, .arr labels_test =>
    num_classes_from_labels labels >>= fun num_classes =>
    let c := check_image_dims images labels images_test labels_test num_classes
    ndarray2list c.1 c.2.1 c.2.2.1 c.2.2.2 batch_size >>= fun l =>
    .ok (l.1, l.2.1, l.2.2.1, l.2.2.2, num_classes)
  | _, _, _, _ => .err .invalidInputType

/-- The list `[a, a+1, ..., a+n-1]` of consecutive integers, used to state
what a valid label encoding looks like. -/
def intRange (a : ℤ) : ℕ → List ℤ
  | 0 => []
  | n + 1 => a :: intRange (a + 1) n

theorem length_intRange (a : ℤ) (n : ℕ) : (intRange a n).length = n := by
  induction n generalizing a with
  | zero => rfl
  | succ n ih => simp [intRange, ih]

theorem mem_intRange {v a : ℤ} {n : ℕ} : v ∈ intRange a n ↔ a ≤ v ∧ v < a + n := by
  induction n generalizing a with
  | zero => simp [intRange]
  | succ n ih =>
    simp only [intRange, List.mem_cons, ih]
    constructor
    · rintro (rfl | ⟨h1, h2⟩) <;> constructor <;> omega
    · rintro ⟨h1, h2⟩
      rcases eq_or_lt_of_le h1 with rfl | hlt
      · exact Or.inl rfl
      · exact Or.inr ⟨by omega, by omega⟩

theorem nodup_intRange (a : ℤ) (n : ℕ) : (intRange a n).Nodup := by
  induction n generalizing a with
  | zero => simp [intRange]
  | succ n ih =>
    refine List.nodup_cons.2 ⟨fun hmem => ?_, ih (a + 1)⟩
    have := mem_intRange.1 hmem
    omega

theorem sorted_intRange (a : ℤ) (n : ℕ) : (intRange a n).Sorted (· ≤ ·) := by
  induction n generalizing a with
  | zero => simp [intRange]
  | succ n ih =>
    refine List.sorted_cons.2 ⟨fun b hb => ?_, ih (a + 1)⟩
    have := mem_intRange.1 hb
    omega

theorem consecCheck_intRange (a : ℤ) (n : ℕ) : consecCheck (intRange a n) = true := by
  induction n generalizing a with
  | zero => rfl
  | succ n ih =>
    cases n with
    | zero => rfl
    | succ n =>
      show (decide (a + 1 - a = 1) && consecCheck (intRange (a + 1) (n + 1))) = true
      rw [ih (a + 1)]
      simp

theorem consecCheck_eq_intRange :
    ∀ l : List ℤ, consecCheck l = true → l = intRange (l.headD 0) l.length := by
  intro l
  induction l with
  | nil => intro _; rfl
  | cons a t ih =>
    cases t with
    | nil => intro _; rfl
    | cons b r =>
      intro h
      rw [show consecCheck (a :: b :: r) = (decide (b - a = 1) && consecCheck (b :: r)) from rfl,
        Bool.and_eq_true, decide_eq_true_eq] at h
      obtain ⟨hab, ht⟩ := h
      have h2 : b :: r = intRange b (r.length + 1) := by simpa using ih ht
      have hb : b = a + 1 := by omega
      show a :: b :: r = intRange a (r.length + 1 + 1)
      rw [intRange, ← hb, ← h2]

theorem mem_npUnique {v : ℤ} {l : List ℤ} : v ∈ npUnique l ↔ v ∈ l := by
  unfold npUnique
  rw [List.mem_dedup]
  exact (List.perm_insertionSort _ l).mem_iff

theorem nodup_npUnique (l : List ℤ) : (npUnique l).Nodup :=
  List.nodup_dedup _

theorem sorted_npUnique (l : List ℤ) : (npUnique l).Sorted (· ≤ ·) :=
  List.Pairwise.sublist (List.dedup_sublist _) (List.sorted_insertionSort _ l)

/-- If the set of values of `l` is exactly `{0, ..., k-1}` then
`np.unique(l)` is the list `[0, 1, ..., k-1]`. -/
theorem npUnique_eq_intRange {l : List ℤ} {k : ℕ}
    (h : ∀ v : ℤ, v ∈ l ↔ 0 ≤ v ∧ v < (k : ℤ)) : npUnique l = intRange 0 k := by
  refine List.eq_of_perm_of_sorted ?_ (sorted_npUnique l) (sorted_intRange 0 k)
  refine (List.perm_ext_iff_of_nodup (nodup_npUnique l) (nodup_intRange 0 k)).2 fun v => ?_
  rw [mem_npUnique, h v, mem_intRange]
  omega

theorem num_classes_nil (labels : NDArray (List ℤ))
    (heq : npUnique labels.data.flatten = []) :
    num_classes_from_labels labels = .err .valueError := by
  simp only [num_classes_from_labels]
  rw [heq]

theorem num_classes_cons (labels : NDArray (List ℤ)) (m : ℤ) (rest : List ℤ)
    (heq : npUnique labels.data.flatten = m :: rest) :
    num_classes_from_labels labels =
      (if m ≠ 0 then .err .invalidLabelEncoding
       else if ¬ consecCheck (m :: rest) then .err .invalidLabelEncoding
       else .ok (if (m :: rest).length = 2 then (m :: rest).length - 1
                 else (m :: rest).length)) := by
  simp only [num_classes_from_labels]
  rw [heq]

/-- C2: for every label array whose set of distinct values is exactly
`{0, ..., k-1}` for some `k ≥ 1`, `num_classes_from_labels` succeeds,
returning `k` when `k ≠ 2` and `1` when `k = 2`. -/
theorem num_classes_from_labels_of_range (labels : NDArray (List ℤ)) (k : ℕ)
    (hk : 1 ≤ k)
    (h : ∀ v : ℤ, v ∈ labels.data.flatten ↔ 0 ≤ v ∧ v < (k : ℤ)) :
    num_classes_from_labels labels = .ok (if k = 2 then 1 else k) := by
  obtain ⟨k', rfl⟩ : ∃ k', k = k' + 1 := ⟨k - 1, by omega⟩
  have hu : npUnique labels.data.flatten = intRange 0 (k' + 1) := npUnique_eq_intRange h
  rw [intRange] at hu
  rw [num_classes_cons labels 0 _ hu]
  have hcc : consecCheck ((0 : ℤ) :: intRange (0 + 1) k') = true := by
    rw [show ((0 : ℤ) :: intRange (0 + 1) k') = intRange 0 (k' + 1) from rfl]
    exact consecCheck_intRange 0 (k' + 1)
  rw [if_neg (by simp), if_neg (by simpa using hcc)]
  simp only [List.length_cons, length_intRange]
  by_cases h2 : k' + 1 = 2 <;> simp [h2]

/-- Witness for C2: label values `{0, 1, 2}` yield class count `3`
(and `{0, 1}` would be the `k = 2` case). -/
theorem num_classes_from_labels_of_range_witness :
    num_classes_from_labels ⟨[3], [[0], [1], [2]]⟩ = .ok (if 3 = 2 then 1 else 3) :=
  num_classes_from_labels_of_range ⟨[3], [[0], [1], [2]]⟩ 3 (by decide)
    (fun v => by simp [List.flatten]; omega)

/-- C3: for every label array with at least one value whose set of distinct
values is not `{0, ..., k-1}` for any `k` (minimum not 0, or gaps), the
class counter fails with `invalidLabelEncoding`. -/
theorem num_classes_from_labels_invalid (labels : NDArray (List ℤ))
    (hne : labels.data.flatten ≠ [])
    (h : ∀ k : ℕ, ¬ ∀ v : ℤ, (v ∈ labels.data.flatten ↔ 0 ≤ v ∧ v < (k : ℤ))) :
    num_classes_from_labels labels = .err .invalidLabelEncoding := by
  obtain ⟨m, rest, heq⟩ : ∃ m rest, npUnique labels.data.flatten = m :: rest := by
    cases hu : npUnique labels.data.flatten with
    | nil =>
      obtain ⟨v, hv⟩ := List.exists_mem_of_ne_nil _ hne
      have hmem : v ∈ npUnique labels.data.flatten := mem_npUnique.2 hv
      rw [hu] at hmem
      simp at hmem
    | cons m rest => exact ⟨m, rest, rfl⟩
  rw [num_classes_cons labels m rest heq]
  by_cases hm : m = 0
  · subst hm
    by_cases hc : consecCheck ((0 : ℤ) :: rest) = true
    · exfalso
      have hr := consecCheck_eq_intRange _ hc
      simp only [List.headD_cons, List.length_cons] at hr
      apply h (rest.length + 1)
      intro v
      rw [← mem_npUnique (l := labels.data.flatten), heq, hr, mem_intRange]
      omega
    · simp [hc]
  · simp [hm]

/-- Witness for C3: label values `{1, 2}` (minimum not 0) are rejected
with `invalidLabelEncoding`. -/
theorem num_classes_from_labels_invalid_witness :
    num_classes_from_labels ⟨[2], [[1], [2]]⟩ = .err .invalidLabelEncoding :=
  num_classes_from_labels_invalid ⟨[2], [[1], [2]]⟩ (by decide)
    (by
      intro k hc
      rcases Nat.eq_zero_or_pos k with hk | hk
      · have h1 := (hc 1).1 (by simp [List.flatten])
        rw [hk] at h1
        omega
      · have h0 := (hc 0).2 ⟨le_refl 0, by exact_mod_cast hk⟩
        simp [List.flatten] at h0)

/-- C10: whenever `num_classes_from_labels` succeeds, the returned class
count is positive and never equal to 2. -/
theorem num_classes_from_labels_pos_ne_two (labels : NDArray (List ℤ)) (n : ℕ)
    (h : num_classes_from_labels labels = .ok n) : 0 < n ∧ n ≠ 2 := by
  cases hu : npUnique labels.data.flatten with
  | nil =>
    rw [num_classes_nil labels hu] at h
    simp at h
  | cons m rest =>
    rw [num_classes_cons labels m rest hu] at h
    split at h
    · simp at h
    · split at h
      · simp at h
      · injection h with h
        split at h <;> simp only [List.length_cons] at * <;> omega

/-- Witness for C10: a single-class label array returns class count 1,
which is positive and not 2. -/
theorem num_classes_from_labels_pos_ne_two_witness : 0 < 1 ∧ (1 : ℕ) ≠ 2 :=
  num_classes_from_labels_pos_ne_two ⟨[1], [[0]]⟩ 1 (by decide)

theorem expand1_shape {α : Type} (a : NDArray α) :
    (expand1 a).shape = a.shape.take 1 ++ 1 :: a.shape.drop 1 := rfl

theorem expand1_data {α : Type} (a : NDArray α) : (expand1 a).data = a.data := rfl

theorem expand1_ndim {α : Type} (a : NDArray α) : (expand1 a).ndim = a.ndim + 1 := by
  simp only [NDArray.ndim, expand1, List.length_append, List.length_take,
    List.length_cons, List.length_drop]
  omega

/-- C4: in `check_image_dims`, a data array of rank exactly 3 gets a
singleton channel axis inserted at position 1 (becoming rank 4),
independently of the class count; a label array is expanded iff the class
count is 1 and its own rank is 3; with class count above 1 the label
arrays keep their rank. -/
theorem check_image_dims_spec {α : Type} (X_train y_train X_test y_test : NDArray α)
    (num_classes : ℕ) :
    (X_train.ndim = 3 →
      (check_image_dims X_train y_train X_test y_test num_classes).1.shape =
        X_train.shape.take 1 ++ 1 :: X_train.shape.drop 1 ∧
      (check_image_dims X_train y_train X_test y_test num_classes).1.ndim = 4 ∧
      (check_image_dims X_train y_train X_test y_test num_classes).1.data = X_train.data) ∧
    (X_test.ndim = 3 →
      (check_image_dims X_train y_train X_test y_test num_classes).2.2.1.shape =
        X_test.shape.take 1 ++ 1 :: X_test.shape.drop 1 ∧
      (check_image_dims X_train y_train X_test y_test num_classes).2.2.1.ndim = 4 ∧
      (check_image_dims X_train y_train X_test y_test num_classes).2.2.1.data = X_test.data) ∧
    (num_classes = 1 ∧ y_train.ndim = 3 →
      (check_image_dims X_train y_train X_test y_test num_classes).2.1 = expand1 y_train) ∧
    (¬ (num_classes = 1 ∧ y_train.ndim = 3) →
      (check_image_dims X_train y_train X_test y_test num_classes).2.1 = y_train) ∧
    (num_classes = 1 ∧ y_test.ndim = 3 →
      (check_image_dims X_train y_train X_test y_test num_classes).2.2.2 = expand1 y_test) ∧
    (¬ (num_classes = 1 ∧ y_test.ndim = 3) →
      (check_image_dims X_train y_train X_test y_test num_classes).2.2.2 = y_test) ∧
    (1 < num_classes →
      (check_image_dims X_train y_train X_test y_test num_classes).2.1.ndim = y_train.ndim ∧
      (check_image_dims X_train y_train X_test y_test num_classes).2.2.2.ndim = y_test.ndim) := by
  refine ⟨fun h => ?_, fun h => ?_, fun h => ?_, fun h => ?_, fun h => ?_, fun h => ?_,
    fun h => ?_⟩
  · have e1 : (check_image_dims X_train y_train X_test y_test num_classes).1 =
        expand1 X_train := by simp [check_image_dims, h]
    rw [e1]
    exact ⟨rfl, by rw [expand1_ndim, h], rfl⟩
  · have e1 : (check_image_dims X_train y_train X_test y_test num_classes).2.2.1 =
        expand1 X_test := by simp [check_image_dims, h]
    rw [e1]
    exact ⟨rfl, by rw [expand1_ndim, h], rfl⟩
  · simp [check_image_dims, h.1, h.2]
  · simp [check_image_dims, h]
  · simp [check_image_dims, h.1, h.2]
  · simp [check_image_dims, h]
  · have hn1 : ¬ (num_classes = 1 ∧ y_train.ndim = 3) := fun hc => by omega
    have hn2 : ¬ (num_classes = 1 ∧ y_test.ndim = 3) := fun hc => by omega
    constructor
    · rw [show (check_image_dims X_train y_train X_test y_test num_classes).2.1 = y_train
        from by simp [check_image_dims, hn1]]
    · rw [show (check_image_dims X_train y_train X_test y_test num_classes).2.2.2 = y_test
        from by simp [check_image_dims, hn2]]

/-- Witness for C4: rank-3 data with class count 2 is expanded to rank 4
while the rank-3 labels stay untouched. -/
theorem check_image_dims_spec_witness :
    ((check_image_dims (⟨[2, 5, 5], [0, 1]⟩ : NDArray ℕ) ⟨[2, 5, 5], [2, 3]⟩
        ⟨[2, 5, 5], [4, 5]⟩ ⟨[2, 5, 5], [6, 7]⟩ 4).1.shape = [2, 1, 5, 5] ∧
      (check_image_dims (⟨[2, 5, 5], [0, 1]⟩ : NDArray ℕ) ⟨[2, 5, 5], [2, 3]⟩
        ⟨[2, 5, 5], [4, 5]⟩ ⟨[2, 5, 5], [6, 7]⟩ 4).1.ndim = 4) ∧
    (check_image_dims (⟨[2, 5, 5], [0, 1]⟩ : NDArray ℕ) ⟨[2, 5, 5], [2, 3]⟩
        ⟨[2, 5, 5], [4, 5]⟩ ⟨[2, 5, 5], [6, 7]⟩ 4).2.1 = ⟨[2, 5, 5], [2, 3]⟩ := by
  have hspec := check_image_dims_spec (⟨[2, 5, 5], [0, 1]⟩ : NDArray ℕ) ⟨[2, 5, 5], [2, 3]⟩
    ⟨[2, 5, 5], [4, 5]⟩ ⟨[2, 5, 5], [6, 7]⟩ 4
  obtain ⟨h1, -, -, h4, -, -, -⟩ := hspec
  obtain ⟨hs, hn, -⟩ := h1 (by decide)
  exact ⟨⟨by rw [hs]; rfl, hn⟩, h4 (by decide)⟩

/-- C8: `check_image_dims` on four rank-4 arrays is the identity (so
re-running it is a no-op), while a rank-3 data array always gets exactly
one size-1 axis inserted at position 1, its contents untouched. -/
theorem check_image_dims_rank4_id {α : Type} (X_train y_train X_test y_test : NDArray α)
    (num_classes : ℕ) :
    (X_train.ndim = 4 → y_train.ndim = 4 → X_test.ndim = 4 → y_test.ndim = 4 →
      check_image_dims X_train y_train X_test y_test num_classes =
        (X_train, y_train, X_test, y_test)) ∧
    (X_train.ndim = 3 →
      (check_image_dims X_train y_train X_test y_test num_classes).1.shape =
        X_train.shape.take 1 ++ 1 :: X_train.shape.drop 1 ∧
      (check_image_dims X_train y_train X_test y_test num_classes).1.shape.length =
        X_train.shape.length + 1 ∧
      (check_image_dims X_train y_train X_test y_test num_classes).1.data = X_train.data) := by
  constructor
  · intro h1 h2 h3 h4
    simp [check_image_dims, h1, h2, h3, h4]
  · intro h
    have e1 : (check_image_dims X_train y_train X_test y_test num_classes).1 =
        expand1 X_train := by simp [check_image_dims, h]
    rw [e1]
    refine ⟨rfl, ?_, rfl⟩
    have := expand1_ndim X_train
    simpa [NDArray.ndim] using this

/-- Witness for C8: rank-4 arrays pass through unchanged; a rank-3 data
array gains the `[2, 1, 5, 5]` shape. -/
theorem check_image_dims_rank4_id_witness :
    check_image_dims (⟨[2, 1, 5, 5], [0, 1]⟩ : NDArray ℕ) ⟨[2, 1, 5, 5], [2, 3]⟩
      ⟨[2, 1, 5, 5], [4, 5]⟩ ⟨[2, 1, 5, 5], [6, 7]⟩ 1 =
      (⟨[2, 1, 5, 5], [0, 1]⟩, ⟨[2, 1, 5, 5], [2, 3]⟩,
       ⟨[2, 1, 5, 5], [4, 5]⟩, ⟨[2, 1, 5, 5], [6, 7]⟩) :=
  (check_image_dims_rank4_id (⟨[2, 1, 5, 5], [0, 1]⟩ : NDArray ℕ) ⟨[2, 1, 5, 5], [2, 3]⟩
    ⟨[2, 1, 5, 5], [4, 5]⟩ ⟨[2, 1, 5, 5], [6, 7]⟩ 1).1
    (by decide) (by decide) (by decide) (by decide)

/-- C5: `check_signal_dims` branches solely on comparing the train data
rank to the train label rank.  When data outranks labels, each of the four
arrays is expanded (singleton axis at position 1) iff its own rank is
exactly 3 (data) or exactly 2 (labels); when labels outrank data the
thresholds swap; equal train ranks return all four arrays unchanged.  Test
arrays follow the train comparison but their own rank triggers their own
insertion. -/
theorem check_signal_dims_spec {α : Type} (X_train y_train X_test y_test : NDArray α) :
    (y_train.ndim < X_train.ndim →
      check_signal_dims X_train y_train X_test y_test =
        ((if X_train.ndim = 3 then expand1 X_train else X_train),
         (if y_train.ndim = 2 then expand1 y_train else y_train),
         (if X_test.ndim = 3 then expand1 X_test else X_test),
         (if y_test.ndim = 2 then expand1 y_test else y_test))) ∧
    (X_train.ndim < y_train.ndim →
      check_signal_dims X_train y_train X_test y_test =
        ((if X_train.ndim = 2 then expand1 X_train else X_train),
         (if y_train.ndim = 3 then expand1 y_train else y_train),
         (if X_test.ndim = 2 then expand1 X_test else X_test),
         (if y_test.ndim = 3 then expand1 y_test else y_test))) ∧
    (X_train.ndim = y_train.ndim →
      check_signal_dims X_train y_train X_test y_test =
        (X_train, y_train, X_test, y_test)) := by
  refine ⟨fun h => ?_, fun h => ?_, fun h => ?_⟩
  · rw [check_signal_dims, if_pos h]
  · rw [check_signal_dims, if_neg (by omega), if_pos h]
  · rw [check_signal_dims, if_neg (by omega), if_neg (by omega)]

/-- Witness for C5: rank-3 images with rank-2 spectra (train pair decides)
get expanded to ranks 4 and 3; a rank-4 test image is left alone while the
rank-2 test spectra still expand. -/
theorem check_signal_dims_spec_witness :
    check_signal_dims (⟨[2, 5, 5], [0, 1]⟩ : NDArray ℕ) ⟨[2, 9], [2, 3]⟩
      ⟨[2, 1, 5, 5], [4, 5]⟩ ⟨[2, 9], [6, 7]⟩ =
      (⟨[2, 1, 5, 5], [0, 1]⟩, ⟨[2, 1, 9], [2, 3]⟩,
       ⟨[2, 1, 5, 5], [4, 5]⟩, ⟨[2, 1, 9], [6, 7]⟩) := by
  have h := (check_signal_dims_spec (⟨[2, 5, 5], [0, 1]⟩ : NDArray ℕ) ⟨[2, 9], [2, 3]⟩
    ⟨[2, 1, 5, 5], [4, 5]⟩ ⟨[2, 9], [6, 7]⟩).1 (by decide)
  rw [h]
  rfl

theorem npSplit_zero {α : Type} (a : NDArray α) : npSplit a 0 = .err .valueError := by
  rw [npSplit]
  simp

theorem npSplit_err {α : Type} (a : NDArray α) (n : ℕ) (e : PrepError)
    (h : npSplit a n = .err e) : e = .valueError := by
  rw [npSplit] at h
  split at h
  · injection h with h
    exact h.symm
  · split at h
    · injection h with h
      exact h.symm
    · simp at h

theorem flatten_range_chunks {α : Type} (d : List α) (c : ℕ) :
    ∀ n : ℕ, ((List.range n).map fun i => (d.drop (i * c)).take c).flatten = d.take (n * c) := by
  intro n
  induction n with
  | zero => simp
  | succ n ih =>
    rw [List.range_succ, List.map_append, List.flatten_append, ih]
    simp only [List.map_cons, List.map_nil, List.flatten_cons, List.flatten_nil, List.append_nil]
    rw [show (n + 1) * c = n * c + c from by ring, List.take_add]

theorem take_drop_of_take {α : Type} (d : List α) (i b n : ℕ) (hi : i < n) :
    ((d.take (n * b)).drop (i * b)).take b = (d.drop (i * b)).take b := by
  rw [List.drop_take, List.take_take]
  have hle : b ≤ n * b - i * b := by
    have h1 : (i + 1) * b ≤ n * b := Nat.mul_le_mul_right b hi
    have h2 : (i + 1) * b = i * b + b := by ring
    omega
  rw [min_eq_left hle]

theorem npSplit_sliceLead {α : Type} (A : NDArray α) (n b : ℕ) (hn : n ≠ 0)
    (hle : n * b ≤ A.dim0) :
    npSplit (sliceLead A (n * b)) n =
      .ok ((List.range n).map fun i =>
        ⟨b :: A.shape.tail, (A.data.drop (i * b)).take b⟩) := by
  have hmin : min (n * b) A.dim0 = n * b := min_eq_left hle
  have hdim : (sliceLead A (n * b)).dim0 = n * b := by
    show min (n * b) A.dim0 = n * b
    exact hmin
  have hq : (sliceLead A (n * b)).dim0 / n = b := by
    rw [hdim]
    exact Nat.mul_div_cancel_left b (Nat.pos_of_ne_zero hn)
  rw [npSplit, if_neg hn, if_neg (by rw [hdim]; simp [Nat.mul_mod_right])]
  congr 1
  apply List.map_congr_left
  intro i hi
  rw [List.mem_range] at hi
  simp only [hq]
  simp only [sliceLead, List.tail_cons, hmin]
  congr 1
  exact take_drop_of_take A.data i b n hi

/-- Success of `ndarray2list` pins down every output component: each is the
list of consecutive `batch_size`-sample slices of the (truncated) input.
Shared backbone for the batching claims. -/
theorem ndarray2list_ok_char {α : Type} (X_train y_train X_test y_test : NDArray α)
    (b : ℕ)
    (out : List (NDArray α) × List (NDArray α) × List (NDArray α) × List (NDArray α))
    (htr : y_train.dim0 = X_train.dim0) (hte : y_test.dim0 = X_test.dim0)
    (h : ndarray2list X_train y_train X_test y_test b = .ok out) :
    0 < b ∧ 0 < X_train.dim0 / b ∧ 0 < X_test.dim0 / b ∧
    out.1 = (List.range (X_train.dim0 / b)).map (fun i =>
      ⟨b :: X_train.shape.tail, (X_train.data.drop (i * b)).take b⟩) ∧
    out.2.1 = (List.range (X_train.dim0 / b)).map (fun i =>
      ⟨b :: y_train.shape.tail, (y_train.data.drop (i * b)).take b⟩) ∧
    out.2.2.1 = (List.range (X_test.dim0 / b)).map (fun i =>
      ⟨b :: X_test.shape.tail, (X_test.data.drop (i * b)).take b⟩) ∧
    out.2.2.2 = (List.range (X_test.dim0 / b)).map (fun i =>
      ⟨b :: y_test.shape.tail, (y_test.data.drop (i * b)).take b⟩) := by
  simp only [ndarray2list] at h
  cases hA : npSplit (sliceLead X_train (X_train.dim0 / b * b)) (X_train.dim0 / b) with
  | err e => rw [hA, Result.err_bind] at h; simp at h
  | ok lA =>
  rw [hA, Result.ok_bind] at h
  cases hB : npSplit (sliceLead y_train (X_train.dim0 / b * b)) (X_train.dim0 / b) with
  | err e => rw [hB, Result.err_bind] at h; simp at h
  | ok lB =>
  rw [hB, Result.ok_bind] at h
  cases hC : npSplit (sliceLead X_test (X_test.dim0 / b * b)) (X_test.dim0 / b) with
  | err e => rw [hC, Result.err_bind] at h; simp at h
  | ok lC =>
  rw [hC, Result.ok_bind] at h
  cases hD : npSplit (sliceLead y_test (X_test.dim0 / b * b)) (X_test.dim0 / b) with
  | err e => rw [hD, Result.err_bind] at h; simp at h
  | ok lD =>
  rw [hD, Result.ok_bind] at h
  have hout : out = (lA, lB, lC, lD) := by
    injection h with h2
    exact h2.symm
  subst hout
  have hntr : X_train.dim0 / b ≠ 0 := fun h0 => by
    rw [h0, npSplit_zero] at hA
    exact Result.noConfusion hA
  have hnte : X_test.dim0 / b ≠ 0 := fun h0 => by
    rw [h0, npSplit_zero] at hC
    exact Result.noConfusion hC
  have hb : 0 < b := by
    rcases Nat.eq_zero_or_pos b with rfl | hb
    · exact absurd (Nat.div_zero X_train.dim0) hntr
    · exact hb
  rw [npSplit_sliceLead X_train (X_train.dim0 / b) b hntr (Nat.div_mul_le_self _ _)] at hA
  rw [npSplit_sliceLead y_train (X_train.dim0 / b) b hntr
    (by rw [htr]; exact Nat.div_mul_le_self _ _)] at hB
  rw [npSplit_sliceLead X_test (X_test.dim0 / b) b hnte (Nat.div_mul_le_self _ _)] at hC
  rw [npSplit_sliceLead y_test (X_test.dim0 / b) b hnte
    (by rw [hte]; exact Nat.div_mul_le_self _ _)] at hD
  injection hA with hA2
  injection hB with hB2
  injection hC with hC2
  injection hD with hD2
  exact ⟨hb, Nat.pos_of_ne_zero hntr, Nat.pos_of_ne_zero hnte,
    hA2.symm, hB2.symm, hC2.symm, hD2.symm⟩

theorem chunk_data_length {α : Type} {d : List α} {i b n N : ℕ} (hi : i < n)
    (hlen : d.length = N) (hnb : n * b ≤ N) :
    ((d.drop (i * b)).take b).length = b := by
  rw [List.length_take, List.length_drop, hlen]
  have h1 : (i + 1) * b ≤ n * b := Nat.mul_le_mul_right b hi
  have h2 : (i + 1) * b = i * b + b := by ring
  omega

/-- C6: on success, `ndarray2list` cuts each train array into exactly
`X_train.shape[0] / batch_size` chunks and each test array into
`X_test.shape[0] / batch_size` chunks, each chunk carrying exactly
`batch_size` leading samples (both in its shape and in its stored data);
the chunks partition the first `n_batches * batch_size` samples in order,
and the dropped remainder of each pair is less than `batch_size`. -/
theorem ndarray2list_batches_spec {α : Type} (X_train y_train X_test y_test : NDArray α)
    (b : ℕ)
    (out : List (NDArray α) × List (NDArray α) × List (NDArray α) × List (NDArray α))
    (hwX : X_train.wf) (hwy : y_train.wf) (hwXt : X_test.wf) (hwyt : y_test.wf)
    (htr : y_train.dim0 = X_train.dim0) (hte : y_test.dim0 = X_test.dim0)
    (h : ndarray2list X_train y_train X_test y_test b = .ok out) :
    out.1.length = X_train.dim0 / b ∧ out.2.1.length = X_train.dim0 / b ∧
    out.2.2.1.length = X_test.dim0 / b ∧ out.2.2.2.length = X_test.dim0 / b ∧
    (∀ c ∈ out.1, c.dim0 = b ∧ c.data.length = b ∧ c.shape = b :: X_train.shape.tail) ∧
    (∀ c ∈ out.2.1, c.dim0 = b ∧ c.data.length = b ∧ c.shape = b :: y_train.shape.tail) ∧
    (∀ c ∈ out.2.2.1, c.dim0 = b ∧ c.data.length = b ∧ c.shape = b :: X_test.shape.tail) ∧
    (∀ c ∈ out.2.2.2, c.dim0 = b ∧ c.data.length = b ∧ c.shape = b :: y_test.shape.tail) ∧
    X_train.dim0 - X_train.dim0 / b * b < b ∧ X_test.dim0 - X_test.dim0 / b * b < b ∧
    out.1 = (List.range (X_train.dim0 / b)).map (fun i =>
      ⟨b :: X_train.shape.tail, (X_train.data.drop (i * b)).take b⟩) ∧
    out.2.1 = (List.range (X_train.dim0 / b)).map (fun i =>
      ⟨b :: y_train.shape.tail, (y_train.data.drop (i * b)).take b⟩) ∧
    out.2.2.1 = (List.range (X_test.dim0 / b)).map (fun i =>
      ⟨b :: X_test.shape.tail, (X_test.data.drop (i * b)).take b⟩) ∧
    out.2.2.2 = (List.range (X_test.dim0 / b)).map (fun i =>
      ⟨b :: y_test.shape.tail, (y_test.data.drop (i * b)).take b⟩) := by
  obtain ⟨hb, hntr, hnte, h1, h2, h3, h4⟩ :=
    ndarray2list_ok_char X_train y_train X_test y_test b out htr hte h
  have hmul_tr : X_train.dim0 / b * b ≤ X_train.dim0 := Nat.div_mul_le_self _ _
  have hmul_te : X_test.dim0 / b * b ≤ X_test.dim0 := Nat.div_mul_le_self _ _
  have hchunk : ∀ (A : NDArray α) (n : ℕ), A.wf → n * b ≤ A.dim0 →
      ∀ c ∈ (List.range n).map (fun i =>
        (⟨b :: A.shape.tail, (A.data.drop (i * b)).take b⟩ : NDArray α)),
      c.dim0 = b ∧ c.data.length = b ∧ c.shape = b :: A.shape.tail := by
    intro A n hwf hle c hc
    rw [List.mem_map] at hc
    obtain ⟨i, hi, rfl⟩ := hc
    rw [List.mem_range] at hi
    exact ⟨rfl, chunk_data_length hi hwf hle, rfl⟩
  have hrem_tr : X_train.dim0 - X_train.dim0 / b * b < b := by
    have hd := Nat.div_add_mod X_train.dim0 b
    have hm := Nat.mod_lt X_train.dim0 hb
    have hc : X_train.dim0 / b * b = b * (X_train.dim0 / b) := Nat.mul_comm _ _
    omega
  have hrem_te : X_test.dim0 - X_test.dim0 / b * b < b := by
    have hd := Nat.div_add_mod X_test.dim0 b
    have hm := Nat.mod_lt X_test.dim0 hb
    have hc : X_test.dim0 / b * b = b * (X_test.dim0 / b) := Nat.mul_comm _ _
    omega
  refine ⟨by rw [h1]; simp, by rw [h2]; simp, by rw [h3]; simp, by rw [h4]; simp,
    ?_, ?_, ?_, ?_, hrem_tr, hrem_te, h1, h2, h3, h4⟩
  · rw [h1]
    exact hchunk X_train _ hwX (Nat.mul_comm b (X_train.dim0 / b) ▸ hmul_tr)
  · rw [h2]
    refine hchunk y_train _ hwy ?_
    rw [htr]
    exact Nat.mul_comm b (X_train.dim0 / b) ▸ hmul_tr
  · rw [h3]
    exact hchunk X_test _ hwXt (Nat.mul_comm b (X_test.dim0 / b) ▸ hmul_te)
  · rw [h4]
    refine hchunk y_test _ hwyt ?_
    rw [hte]
    exact Nat.mul_comm b (X_test.dim0 / b) ▸ hmul_te

/-- Witness for C6: 5 train samples and 3 test samples with batch size 2
give 2 train chunks of 2 samples (remainder 1 dropped) and 1 test chunk. -/
theorem ndarray2list_batches_spec_witness :
    ([(⟨[2, 4, 4], [0, 1]⟩ : NDArray ℕ), ⟨[2, 4, 4], [2, 3]⟩].length = 5 / 2) ∧
    ((5 : ℕ) - 5 / 2 * 2 < 2) := by
  have h := ndarray2list_batches_spec (⟨[5, 4, 4], [0, 1, 2, 3, 4]⟩ : NDArray ℕ)
    ⟨[5, 4, 4], [5, 6, 7, 8, 9]⟩ ⟨[3, 4, 4], [0, 1, 2]⟩ ⟨[3, 4, 4], [3, 4, 5]⟩ 2
    ([⟨[2, 4, 4], [0, 1]⟩, ⟨[2, 4, 4], [2, 3]⟩],
     [⟨[2, 4, 4], [5, 6]⟩, ⟨[2, 4, 4], [7, 8]⟩],
     [⟨[2, 4, 4], [0, 1]⟩], [⟨[2, 4, 4], [3, 4]⟩])
    (by decide) (by decide) (by decide) (by decide) (by decide) (by decide) (by decide)
  exact ⟨h.1, h.2.2.2.2.2.2.2.2.1⟩

/-- C7: on success, concatenating the chunks of each output sequence in
order reproduces exactly the first `n_batches * batch_size` samples of the
corresponding input array, in order. -/
theorem ndarray2list_concat_spec {α : Type} (X_train y_train X_test y_test : NDArray α)
    (b : ℕ)
    (out : List (NDArray α) × List (NDArray α) × List (NDArray α) × List (NDArray α))
    (htr : y_train.dim0 = X_train.dim0) (hte : y_test.dim0 = X_test.dim0)
    (h : ndarray2list X_train y_train X_test y_test b = .ok out) :
    (out.1.map NDArray.data).flatten = X_train.data.take (X_train.dim0 / b * b) ∧
    (out.2.1.map NDArray.data).flatten = y_train.data.take (X_train.dim0 / b * b) ∧
    (out.2.2.1.map NDArray.data).flatten = X_test.data.take (X_test.dim0 / b * b) ∧
    (out.2.2.2.map NDArray.data).flatten = y_test.data.take (X_test.dim0 / b * b) := by
  obtain ⟨-, -, -, h1, h2, h3, h4⟩ :=
    ndarray2list_ok_char X_train y_train X_test y_test b out htr hte h
  refine ⟨?_, ?_, ?_, ?_⟩
  · rw [h1, List.map_map]
    exact flatten_range_chunks X_train.data b (X_train.dim0 / b)
  · rw [h2, List.map_map]
    exact flatten_range_chunks y_train.data b (X_train.dim0 / b)
  · rw [h3, List.map_map]
    exact flatten_range_chunks X_test.data b (X_test.dim0 / b)
  · rw [h4, List.map_map]
    exact flatten_range_chunks y_test.data b (X_test.dim0 / b)

/-- Witness for C7: concatenating the two train chunks gives back the
first 4 of the 5 original samples. -/
theorem ndarray2list_concat_spec_witness :
    ([[(10 : ℕ), 11], [12, 13]] : List (List ℕ)).flatten =
      [10, 11, 12, 13, 14].take (5 / 2 * 2) :=
  (ndarray2list_concat_spec (⟨[5, 4, 4], [10, 11, 12, 13, 14]⟩ : NDArray ℕ)
    ⟨[5, 4, 4], [5, 6, 7, 8, 9]⟩ ⟨[3, 4, 4], [0, 1, 2]⟩ ⟨[3, 4, 4], [3, 4, 5]⟩ 2
    ([⟨[2, 4, 4], [10, 11]⟩, ⟨[2, 4, 4], [12, 13]⟩],
     [⟨[2, 4, 4], [5, 6]⟩, ⟨[2, 4, 4], [7, 8]⟩],
     [⟨[2, 4, 4], [0, 1]⟩], [⟨[2, 4, 4], [3, 4]⟩])
    (by decide) (by decide) (by decide)).1

/-- C1 counterexample: with 1 available sample and `batch_size = 5`
(`floor(1 / 5) = 0` batches), `ndarray2list` does NOT return an empty
sequence — it fails, because `np.split(arr, 0)` raises
`ValueError: number sections must be larger than 0`. -/
theorem ndarray2list_small_batch_fails :
    ndarray2list (⟨[1, 4, 4], [0]⟩ : NDArray ℕ) ⟨[1, 4, 4], [1]⟩
      ⟨[1, 4, 4], [2]⟩ ⟨[1, 4, 4], [3]⟩ 5 = .err .valueError := by decide

/-- C1 amended: whenever `batch_size` exceeds the available sample count of
a pair (train or test), i.e. the pair's batch count floors to 0, the call
fails with a `ValueError` (from `np.split` with zero sections); it never
returns an empty sequence for that pair. -/
theorem ndarray2list_zero_batches_err {α : Type} (X_train y_train X_test y_test : NDArray α)
    (b : ℕ) (h : X_train.dim0 / b = 0 ∨ X_test.dim0 / b = 0) :
    ndarray2list X_train y_train X_test y_test b = .err .valueError := by
  simp only [ndarray2list]
  rcases h with h | h
  · rw [h]
    rw [npSplit_zero, Result.err_bind]
  · cases hA : npSplit (sliceLead X_train (X_train.dim0 / b * b)) (X_train.dim0 / b) with
    | err e =>
      rw [Result.err_bind, npSplit_err _ _ _ hA]
    | ok lA =>
      rw [Result.ok_bind]
      cases hB : npSplit (sliceLead y_train (X_train.dim0 / b * b)) (X_train.dim0 / b) with
      | err e =>
        rw [Result.err_bind, npSplit_err _ _ _ hB]
      | ok lB =>
        rw [Result.ok_bind, h, npSplit_zero, Result.err_bind]

/-- Witness for C1 (amended): the test pair has 3 samples, the batch size
is 5, so the whole call raises `ValueError`. -/
theorem ndarray2list_zero_batches_err_witness :
    ((⟨[3, 4, 4], [0, 1, 2]⟩ : NDArray ℕ).dim0 / 5 = 0) ∧
    ndarray2list (⟨[5, 4, 4], [0, 1, 2, 3, 4]⟩ : NDArray ℕ) ⟨[5, 4, 4], [5, 6, 7, 8, 9]⟩
      ⟨[3, 4, 4], [0, 1, 2]⟩ ⟨[3, 4, 4], [3, 4, 5]⟩ 5 = .err .valueError :=
  ⟨by decide,
   ndarray2list_zero_batches_err (⟨[5, 4, 4], [0, 1, 2, 3, 4]⟩ : NDArray ℕ)
     ⟨[5, 4, 4], [5, 6, 7, 8, 9]⟩ ⟨[3, 4, 4], [0, 1, 2]⟩ ⟨[3, 4, 4], [3, 4, 5]⟩ 5
     (Or.inr (by decide))⟩

theorem ndarray2list_err {α : Type} (X_train y_train X_test y_test : NDArray α)
    (b : ℕ) (e : PrepError)
    (h : ndarray2list X_train y_train X_test y_test b = .err e) : e = .valueError := by
  simp only [ndarray2list] at h
  cases hA : npSplit (sliceLead X_train (X_train.dim0 / b * b)) (X_train.dim0 / b) with
  | err eA =>
    rw [hA, Result.err_bind] at h
    injection h with h
    rw [← h]
    exact npSplit_err _ _ _ hA
  | ok lA =>
  rw [hA, Result.ok_bind] at h
  cases hB : npSplit (sliceLead y_train (X_train.dim0 / b * b)) (X_train.dim0 / b) with
  | err eB =>
    rw [hB, Result.err_bind] at h
    injection h with h
    rw [← h]
    exact npSplit_err _ _ _ hB
  | ok lB =>
  rw [hB, Result.ok_bind] at h
  cases hC : npSplit (sliceLead X_test (X_test.dim0 / b * b)) (X_test.dim0 / b) with
  | err eC =>
    rw [hC, Result.err_bind] at h
    injection h with h
    rw [← h]
    exact npSplit_err _ _ _ hC
  | ok lC =>
  rw [hC, Result.ok_bind] at h
  cases hD : npSplit (sliceLead y_test (X_test.dim0 / b * b)) (X_test.dim0 / b) with
  | err eD =>
    rw [hD, Result.err_bind] at h
    injection h with h
    rw [← h]
    exact npSplit_err _ _ _ hD
  | ok lD =>
    rw [hD, Result.ok_bind] at h
    simp at h

/-- C9: the pipeline rejects any non-array input with `invalidInputType`
before anything else runs (so bad label values in a non-array run never
surface as `invalidLabelEncoding`); with four arrays, the class count is
inferred from the training labels only: a failing train-label check
propagates its error, a succeeding one fixes the class count `k` of the
final result, and the pipeline can then no longer fail with
`invalidLabelEncoding` — test labels are never validated. -/
theorem preprocess_training_image_data_spec (a b c d : PyObj) (bs : ℕ) :
    ((a = .nonArray ∨ b = .nonArray ∨ c = .nonArray ∨ d = .nonArray) →
      preprocess_training_image_data a b c d bs = .err .invalidInputType) ∧
    (∀ A B C D : NDArray (List ℤ), a = .arr A → b = .arr B → c = .arr C → d = .arr D →
      (∀ e, num_classes_from_labels B = .err e →
        preprocess_training_image_data a b c d bs = .err e) ∧
      (∀ k, num_classes_from_labels B = .ok k →
        (∀ l, ndarray2list (check_image_dims A B C D k).1 (check_image_dims A B C D k).2.1
            (check_image_dims A B C D k).2.2.1 (check_image_dims A B C D k).2.2.2 bs =
              .ok l →
          preprocess_training_image_data a b c d bs =
            .ok (l.1, l.2.1, l.2.2.1, l.2.2.2, k)) ∧
        preprocess_training_image_data a b c d bs ≠ .err .invalidLabelEncoding)) := by
  constructor
  · rintro (rfl | rfl | rfl | rfl)
    · rfl
    · cases a <;> rfl
    · cases a <;> cases b <;> rfl
    · cases a <;> cases b <;> cases c <;> rfl
  · rintro A B C D rfl rfl rfl rfl
    constructor
    · intro e he
      simp only [preprocess_training_image_data]
      rw [he, Result.err_bind]
    · intro k hk
      constructor
      · intro l hl
        simp only [preprocess_training_image_data]
        rw [hk, Result.ok_bind, hl, Result.ok_bind]
      · simp only [preprocess_training_image_data]
        rw [hk, Result.ok_bind]
        cases hres : ndarray2list (check_image_dims A B C D k).1 (check_image_dims A B C D k).2.1
            (check_image_dims A B C D k).2.2.1 (check_image_dims A B C D k).2.2.2 bs with
        | err e =>
          rw [Result.err_bind]
          have := ndarray2list_err _ _ _ _ _ _ hres
          subst this
          simp
        | ok l =>
          rw [Result.ok_bind]
          simp

/-- Witness for C9: a non-array first input (with invalid labels inside
another slot) is rejected with `invalidInputType`; with four genuine
arrays whose train labels carry values `{0, 1}`, the pipeline can no
longer fail with `invalidLabelEncoding`. -/
theorem preprocess_training_image_data_spec_witness :
    preprocess_training_image_data .nonArray (.arr ⟨[1], [[5]]⟩) .nonArray .nonArray 1 =
      .err .invalidInputType ∧
    preprocess_training_image_data (.arr ⟨[2, 2, 2], [[1, 2, 3, 4], [5, 6, 7, 8]]⟩)
      (.arr ⟨[2, 2, 2], [[0, 1, 0, 1], [1, 0, 1, 0]]⟩)
      (.arr ⟨[2, 2, 2], [[1, 1, 1, 1], [2, 2, 2, 2]]⟩)
      (.arr ⟨[2, 2, 2], [[0, 0, 1, 1], [1, 1, 0, 0]]⟩) 1 ≠ .err .invalidLabelEncoding :=
  ⟨(preprocess_training_image_data_spec _ _ _ _ 1).1 (Or.inl rfl),
   (((preprocess_training_image_data_spec _ _ _ _ 1).2 _ _ _ _ rfl rfl rfl rfl).2 1
     (by decide)).2⟩
